import Mathlib

/-!
Verification of the fixture-generation harness `scripts/generate-test.go`
of the go-readability repository.

The Go program is embedded shallowly:

* paths are lists of path components (`fp.Join` of atomic segments is
  modelled as list append);
* the filesystem, the network and the `test-pages` directory listing live
  in a `World` record that is threaded explicitly;
* the external collaborators (`dom.Parse`, `readability.FromDocument`,
  `readability.CheckDocument`, `html.Render`, `nurl.ParseRequestURI`) are
  opaque function fields of an `Env` record, following the spec, which
  scopes them out as pure external interfaces;
* every observable side effect (HTTP GET, MkdirAll, file create/write/sync,
  the "downloading source" log line that marks entry into the download
  step) is recorded in an event trace so that "no network access occurs"
  and "the file is synced" are statable.
-/

namespace GT

/-- A filesystem path, as its list of components.
`fp.Join(a, b)` on atomic components is modelled as list append. -/
abbrev Path := List String

/-- Result of `os.Stat`: the `os.FileInfo` part (Go returns a nil pointer,
here `none`, when stat fails). -/
structure FileInfo where
  isDir : Bool
deriving DecidableEq

/-- Errors `os.Stat` can return; `notExist` is the one `os.IsNotExist`
recognises, `permission` stands for any other stat error. -/
inductive StatError where
  | notExist
  | permission
deriving DecidableEq

/-- One entry of `ioutil.ReadDir`. -/
structure Entry where
  name : String
  isDir : Bool
deriving DecidableEq

/-- Outcome of one `httpClient.Get` plus the subsequent body read:
the connection may fail outright, deliver the whole body, or deliver a
prefix and then fail while the body is being read. -/
inductive NetResult where
  | connectError
  | fullBody (content : String)
  | bodyReadError (received : String)
deriving DecidableEq

/-- The scalar part of `readability.Article` used by the script, plus the
article node (represented abstractly by a `String` identifier that the
opaque renderer consumes). -/
structure Article where
  node : String
  title : String
  byline : String
  excerpt : String
  language : String
  siteName : String
deriving DecidableEq

/-- Modelled from the spec: the external collaborators of the harness.
`validURL` is `nurl.ParseRequestURI` succeeding, `parse` is `dom.Parse`,
`extract` is `readability.FromDocument` at the fixed synthetic base URL
`http://fakehost/test/page.html`, `render` is `html.Render`, and
`checkDocument` is `readability.CheckDocument`.  Per the spec these are
opaque pure functions ("extraction is treated as deterministic and
side-effect-free"), so the document value is not mutated by `extract`. -/
structure Env where
  validURL : String → Bool
  parse : String → Except String String
  extract : String → Except String Article
  render : String → String
  checkDocument : String → Bool

/-- The world the program acts on: regular files (newest binding first),
existing directories, the network, and the result that
`ioutil.ReadDir("test-pages")` would produce. -/
structure World where
  files : List (Path × String)
  dirs : List Path
  net : String → NetResult
  rootEntries : Except String (List Entry)

/-- Observable side effects, in order of occurrence. -/
inductive Event where
  | downloadStart (testName url : String)
  | netGet (url : String)
  | mkdirAll (dir : Path)
  | fileCreate (path : Path)
  | fileWrite (path : Path) (content : String)
  | fileSync (path : Path)
deriving DecidableEq

/-- Content of the regular file at `p`, if one exists. -/
def lookupFile (w : World) (p : Path) : Option String :=
  (w.files.find? (fun e => e.1 == p)).map (fun e => e.2)

/-- Create (or truncate and rewrite) the regular file at `p`. -/
def setFile (w : World) (p : Path) (c : String) : World :=
  { w with files := (p, c) :: w.files }

/-- Effect of `os.MkdirAll`. -/
def addDir (w : World) (d : Path) : World :=
  { w with dirs := d :: w.dirs }

/-- `os.Stat`: on success a `FileInfo` and no error, on failure a nil
info (`none`) and an error.  This world produces only success or
not-exist; `StatError.permission` exists so that `fileExists` can be
analysed on the full interface of `os.Stat`. -/
def goStat (w : World) (p : Path) : Option FileInfo × Option StatError :=
  match lookupFile w p with
  | some _ => (some ⟨false⟩, none)
  | none => if p ∈ w.dirs then (some ⟨true⟩, none) else (none, some .notExist)

/-- `os.IsNotExist` on an optional error (`none` is Go's nil error). -/
def isNotExist : Option StatError → Bool
  | some .notExist => true
  | _ => false

/-- `info.IsDir()` on a possibly nil `os.FileInfo` pointer: calling it on
nil dereferences a nil pointer, modelled as `none` (a panic). -/
def infoIsDir : Option FileInfo → Option Bool
  | none => none
  | some i => some i.isDir

/-- Embedding of `fileExists` (generate-test.go lines 134-137):
`return !os.IsNotExist(err) && !info.IsDir()`.  Go's `&&` short-circuits,
so when `err` is a not-exist error the nil `info` is never touched; for
any other error the nil `info` is dereferenced — result `none` (panic). -/
def fileExists (info : Option FileInfo) (err : Option StatError) : Option Bool :=
  if isNotExist err then some false
  else (infoIsDir info).map (fun d => !d)

/-- `fileExists` as the harness actually runs it, against `goStat` of the
world (which never produces a `permission` error, so no panic occurs —
see `fileExists_goStat`). -/
def fileExistsW (w : World) (p : Path) : Bool :=
  (fileExists (goStat w p).1 (goStat w p).2).getD false

/-- Hex digit used by `encoding/json` `\u00xx` escapes. -/
def hexDigit (n : Nat) : Char :=
  if n < 10 then Char.ofNat (48 + n % 16) else Char.ofNat (87 + n % 16)

/-- Four-digit lower-case hex rendering of a code point below 0x10000. -/
def u4hex (n : Nat) : String :=
  String.mk [hexDigit (n / 4096 % 16), hexDigit (n / 256 % 16),
             hexDigit (n / 16 % 16), hexDigit (n % 16)]

/-- Modelled from the spec: `encoding/json`'s escaping of one character
(with the default HTML escaping of `<`, `>`, `&` and of U+2028/U+2029). -/
def jsonEscapeChar (c : Char) : String :=
  let n := c.toNat
  if n = 34 then "\\\""
  else if n = 92 then "\\\\"
  else if n = 10 then "\\n"
  else if n = 13 then "\\r"
  else if n = 9 then "\\t"
  else if n < 32 ∨ n = 60 ∨ n = 62 ∨ n = 38 ∨ n = 8232 ∨ n = 8233 then "\\u" ++ u4hex n
  else String.mk [c]

/-- JSON string literal for `s`. -/
def jsonQuote (s : String) : String :=
  "\"" ++ String.join (s.data.map jsonEscapeChar) ++ "\""

/-- The key/rendered-value pairs of the anonymous metadata struct of
`renderMetadataToFile` (generate-test.go lines 185-199), in declaration
order; the `omitempty` tag drops a string field whose value is empty,
while `readerable` (a plain `bool` tag) is always emitted. -/
def metadataFields (article : Article) (readerable : Bool) : List (String × String) :=
  (if article.title = "" then [] else [("title", jsonQuote article.title)]) ++
  (if article.byline = "" then [] else [("byline", jsonQuote article.byline)]) ++
  (if article.excerpt = "" then [] else [("excerpt", jsonQuote article.excerpt)]) ++
  (if article.language = "" then [] else [("language", jsonQuote article.language)]) ++
  (if article.siteName = "" then [] else [("siteName", jsonQuote article.siteName)]) ++
  [("readerable", if readerable then "true" else "false")]

/-- Modelled from the spec: `json.MarshalIndent(v, "", "    ")` layout for
a flat object — each field on its own line, indented by the four-space
indent string, separated by commas, braces on their own lines. -/
def jsonObjectIndent4 (fields : List (String × String)) : String :=
  "\x7b\n" ++
    String.intercalate ",\n"
      (fields.map (fun kv => "    " ++ jsonQuote kv.1 ++ ": " ++ kv.2)) ++
  "\n\x7d"

/-- The exact bytes `renderMetadataToFile` marshals for a given article
and readerable flag. -/
def marshalMetadata (article : Article) (readerable : Bool) : String :=
  jsonObjectIndent4 (metadataFields article readerable)

/-- Errors of `downloadWebPage`, in the order its code can produce them. -/
inductive DownloadError where
  | invalidURL
  | fetchFailed
  | saveFailed
deriving DecidableEq

/-- Embedding of `downloadWebPage` (generate-test.go lines 139-166):
validate the URL, GET it, `os.MkdirAll` the parent, `os.Create` the
destination and `io.Copy` the body into it.  On a body-read error the
copy fails after the file was already created and partially written. -/
def downloadWebPage (env : Env) (srcURL : String) (dstPath : Path) (w : World) :
    Except DownloadError Unit × World × List Event :=
  if env.validURL srcURL then
    match w.net srcURL with
    | .connectError => (.error .fetchFailed, w, [.netGet srcURL])
    | .fullBody content =>
        (.ok (), setFile (addDir w dstPath.dropLast) dstPath content,
         [.netGet srcURL, .mkdirAll dstPath.dropLast,
          .fileCreate dstPath, .fileWrite dstPath content])
    | .bodyReadError received =>
        (.error .saveFailed, setFile (addDir w dstPath.dropLast) dstPath received,
         [.netGet srcURL, .mkdirAll dstPath.dropLast,
          .fileCreate dstPath, .fileWrite dstPath received])
  else (.error .invalidURL, w, [])

/-- Embedding of `renderNodeToFile` (generate-test.go lines 168-176):
`os.Create` the file, `html.Render` into it, `defer Close`.  Note there
is no `Sync` call on this path. -/
def renderNodeToFile (env : Env) (element : String) (filename : Path) (w : World) :
    Except String Unit × World × List Event :=
  (.ok (), setFile w filename (env.render element),
   [.fileCreate filename, .fileWrite filename (env.render element)])

/-- Embedding of `renderMetadataToFile` (generate-test.go lines 178-212):
`os.Create`, marshal the metadata struct with `readability.CheckDocument`
of the original document as the readerable flag, write the bytes, and
`return dstFile.Sync()`. -/
def renderMetadataToFile (env : Env) (original : String) (article : Article)
    (filename : Path) (w : World) :
    Except String Unit × World × List Event :=
  (.ok (), setFile w filename (marshalMetadata article (env.checkDocument original)),
   [.fileCreate filename,
    .fileWrite filename (marshalMetadata article (env.checkDocument original)),
    .fileSync filename])

/-- Errors of `generateTestcase`, tagged by the failing stage. -/
inductive GenError where
  | downloadFailed (e : DownloadError)
  | openFailed
  | parseFailed (msg : String)
  | extractFailed (msg : String)
  | renderFailed (msg : String)
  | metadataFailed (msg : String)
deriving DecidableEq

/-- The part of `generateTestcase` after source acquisition
(generate-test.go lines 100-131): open and parse `source.html`, run the
extraction engine, render `expected.html`, render
`expected-metadata.json`. -/
def genRest (env : Env) (testName : String) (w : World) :
    Except GenError Unit × World × List Event :=
  match lookupFile w ["test-pages", testName, "source.html"] with
  | none => (.error .openFailed, w, [])
  | some content =>
    match env.parse content with
    | .error m => (.error (.parseFailed m), w, [])
    | .ok doc =>
      match env.extract doc with
      | .error m => (.error (.extractFailed m), w, [])
      | .ok article =>
        match renderNodeToFile env article.node ["test-pages", testName, "expected.html"] w with
        | (.error m, w1, tr1) => (.error (.renderFailed m), w1, tr1)
        | (.ok _, w1, tr1) =>
          match renderMetadataToFile env doc article
              ["test-pages", testName, "expected-metadata.json"] w1 with
          | (.error m, w2, tr2) => (.error (.metadataFailed m), w2, tr1 ++ tr2)
          | (.ok _, w2, tr2) => (.ok (), w2, tr1 ++ tr2)

/-- Embedding of `generateTestcase` (generate-test.go lines 82-132):
`if !fileExists(sourcePath) || sourceURL != ""` then log the
"downloading source" line (recorded as `Event.downloadStart`) and run
`downloadWebPage`, then continue with the rest of the pipeline. -/
def generateTestcase (env : Env) (testName sourceURL : String) (w : World) :
    Except GenError Unit × World × List Event :=
  if !(fileExistsW w ["test-pages", testName, "source.html"]) || sourceURL != "" then
    match downloadWebPage env sourceURL ["test-pages", testName, "source.html"] w with
    | (.error e, w1, tr1) =>
        (.error (.downloadFailed e), w1, .downloadStart testName sourceURL :: tr1)
    | (.ok _, w1, tr1) =>
        match genRest env testName w1 with
        | (r, w2, tr2) => (r, w2, (.downloadStart testName sourceURL :: tr1) ++ tr2)
  else genRest env testName w

/-- Outcomes of a whole `main` run (`log.Fatal*` terminations and normal
completion). -/
inductive MainOutcome where
  | usageError (msg : String)
  | urlInvalid (url : String)
  | readDirFailed (msg : String)
  | caseFailed (testName : String) (e : GenError)
  | okDone
deriving DecidableEq

/-- A directory entry the batch loop regenerates: a directory that
contains a `source.html` (generate-test.go lines 58-65). -/
def qualifies (w : World) (e : Entry) : Bool :=
  e.isDir && fileExistsW w ["test-pages", e.name, "source.html"]

/-- The batch loop of `main` (generate-test.go lines 58-71): skip
non-directories and directories without `source.html`, run
`generateTestcase(name, "")` for the rest, stop at the first failure.
Also returns the names of the cases actually processed, in order. -/
def batchLoop (env : Env) (items : List Entry) (w : World) :
    MainOutcome × World × List Event × List String :=
  match items with
  | [] => (.okDone, w, [], [])
  | item :: rest =>
    if !item.isDir then batchLoop env rest w
    else if !(fileExistsW w ["test-pages", item.name, "source.html"]) then
      batchLoop env rest w
    else
      match generateTestcase env item.name "" w with
      | (.error e, w1, tr1) => (.caseFailed item.name e, w1, tr1, [item.name])
      | (.ok _, w1, tr1) =>
        match batchLoop env rest w1 with
        | (out, w2, tr2, ps) => (out, w2, tr1 ++ tr2, item.name :: ps)

/-- The body of `main` after argument extraction (generate-test.go lines
38-79): reject an empty test name, validate a supplied URL, dispatch to
the batch loop for the reserved name `all`, otherwise run the single
case.  Also returns the names of the cases processed. -/
def mainWithArgs (env : Env) (testName sourceURL : String) (w : World) :
    MainOutcome × World × List Event × List String :=
  if testName = "" then (.usageError "test name must be defined", w, [], [])
  else if sourceURL != "" && !(env.validURL sourceURL) then
    (.urlInvalid sourceURL, w, [], [])
  else if testName = "all" then
    match w.rootEntries with
    | .error m => (.readDirFailed m, w, [], [])
    | .ok items => batchLoop env items w
  else
    match generateTestcase env testName sourceURL w with
    | (.error e, w1, tr1) => (.caseFailed testName e, w1, tr1, [testName])
    | (.ok _, w1, tr1) => (.okDone, w1, tr1, [testName])

/-- Embedding of `main` (generate-test.go lines 23-80): the `switch` on
`len(os.Args)` — two entries (program name and test name), three entries
(plus source URL), the unreachable zero case, and the catch-all for one
or more than three entries. -/
def mainRun (env : Env) (argv : List String) (w : World) :
    MainOutcome × World × List Event × List String :=
  match argv with
  | [_, testName] => mainWithArgs env testName "" w
  | [_, testName, sourceURL] => mainWithArgs env testName sourceURL w
  | [] => (.usageError "need at least one argument", w, [], [])
  | _ => (.usageError "allowed max two arguments", w, [], [])

/-- Events that only touch files (no network, no download-step entry). -/
def isFileEvent : Event → Bool
  | .fileCreate _ => true
  | .fileWrite _ _ => true
  | .fileSync _ => true
  | _ => false

/-- A concrete environment for witnesses: one recognised URL, a parser
and an engine that always succeed, with `byline`, `language` and
`siteName` left empty by the engine. -/
def env0 : Env where
  validURL := fun s => s == "http://example.com/a"
  parse := fun s => .ok ("doc:" ++ s)
  extract := fun d => .ok ⟨"node:" ++ d, "T", "", "E", "", ""⟩
  render := fun nd => "<div>" ++ nd ++ "</div>"
  checkDocument := fun d => d == "doc:HTML"

/-- A concrete environment whose parser rejects the source bytes `BAD`,
so that individual cases can fail. -/
def envMix : Env where
  validURL := fun s => s == "http://example.com/a"
  parse := fun s => if s = "BAD" then .error "bad html" else .ok ("doc:" ++ s)
  extract := fun d => .ok ⟨"node:" ++ d, "T", "", "E", "", ""⟩
  render := fun nd => "<div>" ++ nd ++ "</div>"
  checkDocument := fun d => d == "doc:HTML"

/-- A concrete world with one complete test case and a network that is
down. -/
def w0 : World where
  files := [(["test-pages", "sample", "source.html"], "HTML")]
  dirs := [["test-pages", "sample"], ["test-pages"]]
  net := fun _ => .connectError
  rootEntries := .ok [⟨"sample", true⟩, ⟨"README.md", false⟩, ⟨"empty", true⟩]

/-- A concrete world whose network delivers a partial body (`<h`) and
then fails while the body is being read. -/
def wPartial : World where
  files := []
  dirs := [["test-pages"]]
  net := fun _ => .bodyReadError "<h"
  rootEntries := .ok []

/-- A concrete world with two sources, the second of which the `envMix`
parser rejects. -/
def wBatch : World where
  files := [(["test-pages", "caseA", "source.html"], "HTML"),
            (["test-pages", "caseB", "source.html"], "BAD")]
  dirs := [["test-pages"], ["test-pages", "caseA"], ["test-pages", "caseB"]]
  net := fun _ => .connectError
  rootEntries := .ok [⟨"caseA", true⟩, ⟨"caseB", true⟩, ⟨"caseC", true⟩]

/-! ### Basic facts about the world model -/

/-- Writing a file changes exactly that path's content. -/
theorem lookupFile_setFile (w : World) (p q : Path) (c : String) :
    lookupFile (setFile w p c) q = if p = q then some c else lookupFile w q := by
  by_cases h : p = q <;> simp [lookupFile, setFile, List.find?_cons, h]

/-- `setFile` keeps the directory set. -/
theorem dirs_setFile (w : World) (p : Path) (c : String) :
    (setFile w p c).dirs = w.dirs := rfl

/-- In this world model a path is a regular file exactly when a lookup
succeeds, so `fileExists` run by the harness is lookup success. -/
theorem fileExistsW_isSome (w : World) (p : Path) :
    fileExistsW w p = (lookupFile w p).isSome := by
  unfold fileExistsW goStat
  cases h : lookupFile w p
  · by_cases hd : p ∈ w.dirs <;> simp [hd, fileExists, isNotExist, infoIsDir]
  · simp [fileExists, isNotExist, infoIsDir]

/-- The harness's calls to `fileExists` never hit the panicking branch:
`goStat` of this world only returns success or a not-exist error. -/
theorem fileExists_goStat (w : World) (p : Path) :
    fileExists (goStat w p).1 (goStat w p).2 = some (fileExistsW w p) := by
  unfold fileExistsW goStat
  cases h : lookupFile w p
  · by_cases hd : p ∈ w.dirs <;> simp [hd, fileExists, isNotExist, infoIsDir]
  · simp [fileExists, isNotExist, infoIsDir]

/-- `fileExists` only depends on the file content at the path. -/
theorem fileExistsW_congr {w1 w2 : World} (p : Path)
    (hf : lookupFile w1 p = lookupFile w2 p) :
    fileExistsW w1 p = fileExistsW w2 p := by
  rw [fileExistsW_isSome, fileExistsW_isSome, hf]

/-- No test case's `source.html` path is any test case's `expected.html`
path. -/
theorem src_ne_exp (m n : String) :
    (["test-pages", m, "source.html"] : Path) ≠ ["test-pages", n, "expected.html"] := by
  intro h
  injection h with h1 h2
  injection h2 with h3 h4
  injection h4 with h5 h6
  exact absurd h5 (by decide)

/-- No test case's `source.html` path is any test case's
`expected-metadata.json` path. -/
theorem src_ne_meta (m n : String) :
    (["test-pages", m, "source.html"] : Path) ≠ ["test-pages", n, "expected-metadata.json"] := by
  intro h
  injection h with h1 h2
  injection h2 with h3 h4
  injection h4 with h5 h6
  exact absurd h5 (by decide)

/-! ### The pipeline after source acquisition

One equation lemma per control-flow branch of `genRest`, then the facts
the claims need, derived from them. -/

/-- `genRest` when opening the source file fails. -/
theorem genRest_eq_open (env : Env) (n : String) (w : World)
    (h : lookupFile w ["test-pages", n, "source.html"] = none) :
    genRest env n w = (.error .openFailed, w, []) := by
  simp only [genRest, h]

/-- `genRest` when `dom.Parse` fails. -/
theorem genRest_eq_parseErr (env : Env) (n : String) (w : World) (content m : String)
    (h1 : lookupFile w ["test-pages", n, "source.html"] = some content)
    (h2 : env.parse content = .error m) :
    genRest env n w = (.error (.parseFailed m), w, []) := by
  simp only [genRest, h1, h2]

/-- `genRest` when the extraction engine fails. -/
theorem genRest_eq_extractErr (env : Env) (n : String) (w : World) (content doc m : String)
    (h1 : lookupFile w ["test-pages", n, "source.html"] = some content)
    (h2 : env.parse content = .ok doc)
    (h3 : env.extract doc = .error m) :
    genRest env n w = (.error (.extractFailed m), w, []) := by
  simp only [genRest, h1, h2, h3]

/-- `genRest` on the success path: both fixture files are written, and
the readerable flag marshalled into the metadata is `CheckDocument` of
the parsed document `doc`. -/
theorem genRest_eq_success (env : Env) (n : String) (w : World) (content doc : String)
    (article : Article)
    (h1 : lookupFile w ["test-pages", n, "source.html"] = some content)
    (h2 : env.parse content = .ok doc)
    (h3 : env.extract doc = .ok article) :
    genRest env n w =
      (.ok (),
       setFile (setFile w ["test-pages", n, "expected.html"] (env.render article.node))
         ["test-pages", n, "expected-metadata.json"]
         (marshalMetadata article (env.checkDocument doc)),
       [.fileCreate ["test-pages", n, "expected.html"],
        .fileWrite ["test-pages", n, "expected.html"] (env.render article.node),
        .fileCreate ["test-pages", n, "expected-metadata.json"],
        .fileWrite ["test-pages", n, "expected-metadata.json"]
          (marshalMetadata article (env.checkDocument doc)),
        .fileSync ["test-pages", n, "expected-metadata.json"]]) := by
  simp only [genRest, h1, h2, h3, renderNodeToFile, renderMetadataToFile]
  rfl

/-- After the source is acquired, the pipeline performs only file events:
it never touches the network and never re-enters the download step. -/
theorem genRest_trace_isFile (env : Env) (n : String) (w : World) :
    ∀ ev ∈ (genRest env n w).2.2, isFileEvent ev = true := by
  intro ev hev
  cases hl : lookupFile w ["test-pages", n, "source.html"] with
  | none => rw [genRest_eq_open env n w hl] at hev; simp at hev
  | some content =>
    cases hp : env.parse content with
    | error m => rw [genRest_eq_parseErr env n w content m hl hp] at hev; simp at hev
    | ok doc =>
      cases hx : env.extract doc with
      | error m => rw [genRest_eq_extractErr env n w content doc m hl hp hx] at hev; simp at hev
      | ok article =>
        rw [genRest_eq_success env n w content doc article hl hp hx] at hev
        simp at hev
        rcases hev with h | h | h | h | h <;> subst h <;> rfl

/-- After the source is acquired, the pipeline writes only the case's
`expected.html` and `expected-metadata.json`; every other path keeps its
content. -/
theorem genRest_lookup (env : Env) (n : String) (w : World) (p : Path)
    (h1 : p ≠ ["test-pages", n, "expected.html"])
    (h2 : p ≠ ["test-pages", n, "expected-metadata.json"]) :
    lookupFile (genRest env n w).2.1 p = lookupFile w p := by
  cases hl : lookupFile w ["test-pages", n, "source.html"] with
  | none => rw [genRest_eq_open env n w hl]
  | some content =>
    cases hp : env.parse content with
    | error m => rw [genRest_eq_parseErr env n w content m hl hp]
    | ok doc =>
      cases hx : env.extract doc with
      | error m => rw [genRest_eq_extractErr env n w content doc m hl hp hx]
      | ok article =>
        rw [genRest_eq_success env n w content doc article hl hp hx]
        show lookupFile (setFile (setFile w _ _) _ _) p = lookupFile w p
        rw [lookupFile_setFile, lookupFile_setFile,
          if_neg (fun hh => h2 hh.symm), if_neg (fun hh => h1 hh.symm)]

/-- After the source is acquired, the pipeline creates no directory. -/
theorem genRest_dirs (env : Env) (n : String) (w : World) :
    (genRest env n w).2.1.dirs = w.dirs := by
  cases hl : lookupFile w ["test-pages", n, "source.html"] with
  | none => rw [genRest_eq_open env n w hl]
  | some content =>
    cases hp : env.parse content with
    | error m => rw [genRest_eq_parseErr env n w content m hl hp]
    | ok doc =>
      cases hx : env.extract doc with
      | error m => rw [genRest_eq_extractErr env n w content doc m hl hp hx]
      | ok article =>
        rw [genRest_eq_success env n w content doc article hl hp hx]
        rfl

/-- With an existing source and no URL override, `generateTestcase` skips
the download step entirely. -/
theorem generateTestcase_reuse (env : Env) (n : String) (w : World)
    (h : fileExistsW w ["test-pages", n, "source.html"] = true) :
    generateTestcase env n "" w = genRest env n w := by
  unfold generateTestcase
  simp [h]

/-- Regenerating a case in reuse mode does not affect which directory
entries qualify for the batch loop. -/
theorem qualifies_genRest (env : Env) (n : String) (w : World) (e : Entry) :
    qualifies (genRest env n w).2.1 e = qualifies w e := by
  unfold qualifies
  congr 1
  apply fileExistsW_congr
  exact genRest_lookup env n w _ (src_ne_exp e.name n) (src_ne_meta e.name n)

/-- On success, the acquired source parses, the engine extracts it, and
`expected-metadata.json` holds the marshalled metadata whose readerable
flag is `CheckDocument` of the parsed (pre-extraction) document. -/
theorem genRest_success_meta (env : Env) (n : String) (w : World)
    (h : (genRest env n w).1 = .ok ()) :
    ∃ srcContent doc article,
      lookupFile w ["test-pages", n, "source.html"] = some srcContent ∧
      env.parse srcContent = .ok doc ∧ env.extract doc = .ok article ∧
      lookupFile (genRest env n w).2.1 ["test-pages", n, "expected-metadata.json"] =
        some (marshalMetadata article (env.checkDocument doc)) := by
  cases hl : lookupFile w ["test-pages", n, "source.html"] with
  | none => rw [genRest_eq_open env n w hl] at h; exact absurd h (by simp)
  | some content =>
    cases hp : env.parse content with
    | error m => rw [genRest_eq_parseErr env n w content m hl hp] at h; exact absurd h (by simp)
    | ok doc =>
      cases hx : env.extract doc with
      | error m =>
        rw [genRest_eq_extractErr env n w content doc m hl hp hx] at h
        exact absurd h (by simp)
      | ok article =>
        refine ⟨content, doc, article, rfl, hp, hx, ?_⟩
        rw [genRest_eq_success env n w content doc article hl hp hx]
        show lookupFile (setFile _ _ _) _ = _
        rw [lookupFile_setFile, if_pos rfl]

/-! ### The download step -/

/-- `downloadWebPage` with an invalid URL: error before any I/O. -/
theorem downloadWebPage_eq_invalid (env : Env) (u : String) (p : Path) (w : World)
    (h : env.validURL u = false) :
    downloadWebPage env u p w = (.error .invalidURL, w, []) := by
  simp [downloadWebPage, h]

/-- `downloadWebPage` when the GET itself fails: error, world untouched. -/
theorem downloadWebPage_eq_connect (env : Env) (u : String) (p : Path) (w : World)
    (h1 : env.validURL u = true) (h2 : w.net u = .connectError) :
    downloadWebPage env u p w = (.error .fetchFailed, w, [.netGet u]) := by
  simp [downloadWebPage, h1, h2]

/-- `downloadWebPage` when the whole body arrives: the file is written. -/
theorem downloadWebPage_eq_full (env : Env) (u : String) (p : Path) (w : World) (c : String)
    (h1 : env.validURL u = true) (h2 : w.net u = .fullBody c) :
    downloadWebPage env u p w =
      (.ok (), setFile (addDir w p.dropLast) p c,
       [.netGet u, .mkdirAll p.dropLast, .fileCreate p, .fileWrite p c]) := by
  simp [downloadWebPage, h1, h2]

/-- `downloadWebPage` when the body read fails mid-copy: the error is
returned, but the destination file was already created and holds the
partially received bytes. -/
theorem downloadWebPage_eq_bodyErr (env : Env) (u : String) (p : Path) (w : World) (r : String)
    (h1 : env.validURL u = true) (h2 : w.net u = .bodyReadError r) :
    downloadWebPage env u p w =
      (.error .saveFailed, setFile (addDir w p.dropLast) p r,
       [.netGet u, .mkdirAll p.dropLast, .fileCreate p, .fileWrite p r]) := by
  simp [downloadWebPage, h1, h2]

/-! ### The case driver -/

/-- `generateTestcase` when the download branch is taken and fails. -/
theorem generateTestcase_eq_dlErr (env : Env) (n u : String) (w : World)
    (e : DownloadError) (w1 : World) (tr1 : List Event)
    (hc : (!(fileExistsW w ["test-pages", n, "source.html"]) || u != "") = true)
    (hd : downloadWebPage env u ["test-pages", n, "source.html"] w = (.error e, w1, tr1)) :
    generateTestcase env n u w =
      (.error (.downloadFailed e), w1, .downloadStart n u :: tr1) := by
  simp only [generateTestcase, hc, hd, if_true]

/-- `generateTestcase` when the download branch is taken and succeeds. -/
theorem generateTestcase_eq_dlOk (env : Env) (n u : String) (w : World)
    (w1 : World) (tr1 : List Event)
    (hc : (!(fileExistsW w ["test-pages", n, "source.html"]) || u != "") = true)
    (hd : downloadWebPage env u ["test-pages", n, "source.html"] w = (.ok (), w1, tr1)) :
    generateTestcase env n u w =
      ((genRest env n w1).1, (genRest env n w1).2.1,
       (.downloadStart n u :: tr1) ++ (genRest env n w1).2.2) := by
  simp only [generateTestcase, hc, hd, if_true]

/-! ### The batch driver -/

/-- `batchLoop` on the empty listing. -/
theorem batchLoop_nil (env : Env) (w : World) :
    batchLoop env [] w = (.okDone, w, [], []) := rfl

/-- `batchLoop` silently skips a non-directory entry. -/
theorem batchLoop_skip_notDir (env : Env) (item : Entry) (rest : List Entry) (w : World)
    (h : item.isDir = false) :
    batchLoop env (item :: rest) w = batchLoop env rest w := by
  simp [batchLoop, h]

/-- `batchLoop` silently skips a directory without `source.html`. -/
theorem batchLoop_skip_noSrc (env : Env) (item : Entry) (rest : List Entry) (w : World)
    (h1 : item.isDir = true)
    (h2 : fileExistsW w ["test-pages", item.name, "source.html"] = false) :
    batchLoop env (item :: rest) w = batchLoop env rest w := by
  simp [batchLoop, h1, h2]

/-- `batchLoop` stops at the first failing case. -/
theorem batchLoop_cons_fail (env : Env) (item : Entry) (rest : List Entry) (w : World)
    (e : GenError) (w1 : World) (tr1 : List Event)
    (h1 : item.isDir = true)
    (h2 : fileExistsW w ["test-pages", item.name, "source.html"] = true)
    (hg : generateTestcase env item.name "" w = (.error e, w1, tr1)) :
    batchLoop env (item :: rest) w = (.caseFailed item.name e, w1, tr1, [item.name]) := by
  simp [batchLoop, h1, h2, hg]

/-- `batchLoop` continues past a successful case. -/
theorem batchLoop_cons_ok (env : Env) (item : Entry) (rest : List Entry) (w : World)
    (w1 : World) (tr1 : List Event) (out : MainOutcome) (w2 : World)
    (tr2 : List Event) (ps : List String)
    (h1 : item.isDir = true)
    (h2 : fileExistsW w ["test-pages", item.name, "source.html"] = true)
    (hg : generateTestcase env item.name "" w = (.ok (), w1, tr1))
    (hb : batchLoop env rest w1 = (out, w2, tr2, ps)) :
    batchLoop env (item :: rest) w = (out, w2, tr1 ++ tr2, item.name :: ps) := by
  simp [batchLoop, h1, h2, hg, hb]

/-- The batch loop never touches the network: each processed case has an
existing `source.html` and is regenerated with the empty URL, so the
download step is never entered. -/
theorem batchLoop_no_netGet (env : Env) (items : List Entry) (w : World) (url : String) :
    Event.netGet url ∉ (batchLoop env items w).2.2.1 := by
  induction items generalizing w with
  | nil => simp [batchLoop_nil]
  | cons item rest ih =>
    by_cases hd : item.isDir = true
    · by_cases hs : fileExistsW w ["test-pages", item.name, "source.html"] = true
      · rcases hg : genRest env item.name w with ⟨r, w1, tr1⟩
        have hgen : generateTestcase env item.name "" w = (r, w1, tr1) := by
          rw [generateTestcase_reuse env item.name w hs, hg]
        have htr : ∀ ev ∈ tr1, isFileEvent ev = true := by
          have h := genRest_trace_isFile env item.name w
          rw [hg] at h; exact h
        cases r with
        | error e =>
          rw [batchLoop_cons_fail env item rest w e w1 tr1 hd hs hgen]
          intro hmem
          have h := htr _ hmem
          simp [isFileEvent] at h
        | ok u =>
          cases u
          rcases hb : batchLoop env rest w1 with ⟨out, w2, tr2, ps⟩
          rw [batchLoop_cons_ok env item rest w w1 tr1 out w2 tr2 ps hd hs hgen hb]
          intro hmem
          rcases List.mem_append.mp hmem with hmem | hmem
          · have h := htr _ hmem
            simp [isFileEvent] at h
          · have h := ih w1
            rw [hb] at h
            exact h hmem
      · rw [batchLoop_skip_noSrc env item rest w hd (by simpa using hs)]
        exact ih w
    · rw [batchLoop_skip_notDir env item rest w (by simpa using hd)]
      exact ih w

/-- Soundness and completeness of the batch loop's case selection: every
processed name belongs to a qualifying entry, a fully successful run
processes exactly the qualifying entries in order, and a reported failure
names a qualifying entry. -/
theorem batchLoop_spec (env : Env) (items : List Entry) (w : World) :
    (∀ n ∈ (batchLoop env items w).2.2.2,
      ∃ e, e ∈ items ∧ e.name = n ∧ qualifies w e = true) ∧
    ((batchLoop env items w).1 = .okDone →
      (batchLoop env items w).2.2.2 =
        (items.filter (fun e => qualifies w e)).map Entry.name) ∧
    (∀ n ge, (batchLoop env items w).1 = .caseFailed n ge →
      ∃ e, e ∈ items ∧ e.name = n ∧ qualifies w e = true) := by
  induction items generalizing w with
  | nil => simp [batchLoop_nil]
  | cons item rest ih =>
    by_cases hd : item.isDir = true
    · by_cases hs : fileExistsW w ["test-pages", item.name, "source.html"] = true
      · have hqi : qualifies w item = true := by simp [qualifies, hd, hs]
        rcases hg : genRest env item.name w with ⟨r, w1, tr1⟩
        have hgen : generateTestcase env item.name "" w = (r, w1, tr1) := by
          rw [generateTestcase_reuse env item.name w hs, hg]
        cases r with
        | error e =>
          rw [batchLoop_cons_fail env item rest w e w1 tr1 hd hs hgen]
          refine ⟨?_, ?_, ?_⟩
          · intro n hn
            simp at hn
            exact ⟨item, List.mem_cons_self item rest, hn ▸ rfl, hqi⟩
          · intro h; exact absurd h (by simp)
          · intro n ge h
            simp only [MainOutcome.caseFailed.injEq] at h
            exact ⟨item, List.mem_cons_self item rest, h.1, hqi⟩
        | ok u =>
          cases u
          rcases hb : batchLoop env rest w1 with ⟨out, w2, tr2, ps⟩
          rw [batchLoop_cons_ok env item rest w w1 tr1 out w2 tr2 ps hd hs hgen hb]
          have hstab : ∀ e : Entry, qualifies w1 e = qualifies w e := by
            intro e
            have h := qualifies_genRest env item.name w e
            rw [hg] at h
            exact h
          have ih1 := ih w1
          rw [hb] at ih1
          refine ⟨?_, ?_, ?_⟩
          · intro n hn
            rcases List.mem_cons.mp hn with hn | hn
            · exact ⟨item, List.mem_cons_self item rest, hn.symm, hqi⟩
            · rcases ih1.1 n hn with ⟨e, he, hen, hq⟩
              exact ⟨e, List.mem_cons_of_mem item he, hen, (hstab e).symm.trans hq⟩
          · intro h
            have hps : ps = List.map Entry.name (List.filter (fun e => qualifies w1 e) rest) :=
              ih1.2.1 h
            rw [List.filter_cons_of_pos hqi]
            show item.name :: ps = _
            simp only [List.map_cons, List.cons.injEq]
            refine ⟨trivial, ?_⟩
            rw [hps]
            congr 1
            exact List.filter_congr (fun e _ => hstab e)
          · intro n ge h
            rcases ih1.2.2 n ge h with ⟨e, he, hen, hq⟩
            exact ⟨e, List.mem_cons_of_mem item he, hen, (hstab e).symm.trans hq⟩
      · have hq0 : qualifies w item = false := by
          simp [qualifies, hd]
          simpa using hs
        rw [batchLoop_skip_noSrc env item rest w hd (by simpa using hs)]
        rcases ih w with ⟨i1, i2, i3⟩
        refine ⟨?_, ?_, ?_⟩
        · intro n hn
          rcases i1 n hn with ⟨e, he, hen, hq⟩
          exact ⟨e, List.mem_cons_of_mem item he, hen, hq⟩
        · intro h
          rw [i2 h, List.filter_cons_of_neg (by simp [hq0])]
        · intro n ge h
          rcases i3 n ge h with ⟨e, he, hen, hq⟩
          exact ⟨e, List.mem_cons_of_mem item he, hen, hq⟩
    · have hq0 : qualifies w item = false := by simp [qualifies, (by simpa using hd : item.isDir = false)]
      rw [batchLoop_skip_notDir env item rest w (by simpa using hd)]
      rcases ih w with ⟨i1, i2, i3⟩
      refine ⟨?_, ?_, ?_⟩
      · intro n hn
        rcases i1 n hn with ⟨e, he, hen, hq⟩
        exact ⟨e, List.mem_cons_of_mem item he, hen, hq⟩
      · intro h
        rw [i2 h, List.filter_cons_of_neg (by simp [hq0])]
      · intro n ge h
        rcases i3 n ge h with ⟨e, he, hen, hq⟩
        exact ⟨e, List.mem_cons_of_mem item he, hen, hq⟩

/-- C8: in batch mode, processing is sequential in enumeration order and
stops at the first failing case: if the run over `pre ++ [b]` ends in a
case failure, then appending further entries `post` changes nothing (no
later case is attempted, the final world — including the outputs of the
earlier, successful cases — is identical), and the failing case's name is
the last name processed and the one reported. -/
theorem batch_fail_fast (env : Env) (pre : List Entry) (b : Entry) (post : List Entry)
    (w : World) (n : String) (ge : GenError)
    (h : (batchLoop env (pre ++ [b]) w).1 = .caseFailed n ge) :
    batchLoop env (pre ++ b :: post) w = batchLoop env (pre ++ [b]) w ∧
    (batchLoop env (pre ++ [b]) w).2.2.2.getLast? = some n := by
  induction pre generalizing w with
  | nil =>
    simp only [List.nil_append] at h ⊢
    by_cases hd : b.isDir = true
    · by_cases hs : fileExistsW w ["test-pages", b.name, "source.html"] = true
      · rcases hg : genRest env b.name w with ⟨r, w1, tr1⟩
        have hgen : generateTestcase env b.name "" w = (r, w1, tr1) := by
          rw [generateTestcase_reuse env b.name w hs, hg]
        cases r with
        | error e =>
          rw [batchLoop_cons_fail env b [] w e w1 tr1 hd hs hgen] at h ⊢
          rw [batchLoop_cons_fail env b post w e w1 tr1 hd hs hgen]
          have h2 : n = b.name ∧ ge = e := by
            simpa [eq_comm] using h
          exact ⟨rfl, by simp [h2.1]⟩
        | ok u =>
          cases u
          rw [batchLoop_cons_ok env b [] w w1 tr1 .okDone w1 [] [] hd hs hgen
            (batchLoop_nil env w1)] at h
          exact absurd h (by simp)
      · rw [batchLoop_skip_noSrc env b [] w hd (by simpa using hs)] at h
        rw [batchLoop_nil] at h
        exact absurd h (by simp)
    · rw [batchLoop_skip_notDir env b [] w (by simpa using hd)] at h
      rw [batchLoop_nil] at h
      exact absurd h (by simp)
  | cons a pre2 ih =>
    simp only [List.cons_append] at h ⊢
    by_cases hd : a.isDir = true
    · by_cases hs : fileExistsW w ["test-pages", a.name, "source.html"] = true
      · rcases hg : genRest env a.name w with ⟨r, w1, tr1⟩
        have hgen : generateTestcase env a.name "" w = (r, w1, tr1) := by
          rw [generateTestcase_reuse env a.name w hs, hg]
        cases r with
        | error e =>
          rw [batchLoop_cons_fail env a (pre2 ++ [b]) w e w1 tr1 hd hs hgen] at h ⊢
          rw [batchLoop_cons_fail env a (pre2 ++ b :: post) w e w1 tr1 hd hs hgen]
          have h2 : n = a.name ∧ ge = e := by
            simpa [eq_comm] using h
          exact ⟨rfl, by simp [h2.1]⟩
        | ok u =>
          cases u
          rcases hb1 : batchLoop env (pre2 ++ [b]) w1 with ⟨out, w2, tr2, ps⟩
          rw [batchLoop_cons_ok env a (pre2 ++ [b]) w w1 tr1 out w2 tr2 ps hd hs hgen hb1] at h ⊢
          have hrec : (batchLoop env (pre2 ++ [b]) w1).1 = .caseFailed n ge := by
            rw [hb1]; exact h
          rcases ih w1 hrec with ⟨hEq, hLast⟩
          have hb2 : batchLoop env (pre2 ++ b :: post) w1 = (out, w2, tr2, ps) :=
            hEq.trans hb1
          rw [batchLoop_cons_ok env a (pre2 ++ b :: post) w w1 tr1 out w2 tr2 ps hd hs hgen hb2]
          refine ⟨rfl, ?_⟩
          rw [hb1] at hLast
          have hLast2 : ps.getLast? = some n := hLast
          show (a.name :: ps).getLast? = some n
          cases ps with
          | nil => exact absurd hLast2 (by simp)
          | cons x xs => rw [List.getLast?_cons_cons]; exact hLast2
      · rw [batchLoop_skip_noSrc env a (pre2 ++ [b]) w hd (by simpa using hs)] at h ⊢
        rw [batchLoop_skip_noSrc env a (pre2 ++ b :: post) w hd (by simpa using hs)]
        exact ih w h
    · rw [batchLoop_skip_notDir env a (pre2 ++ [b]) w (by simpa using hd)] at h ⊢
      rw [batchLoop_skip_notDir env a (pre2 ++ b :: post) w (by simpa using hd)]
      exact ih w h

/-- `generateTestcase` when the download branch is not taken. -/
theorem generateTestcase_eq_noDl (env : Env) (n u : String) (w : World)
    (hc : (!(fileExistsW w ["test-pages", n, "source.html"]) || u != "") = false) :
    generateTestcase env n u w = genRest env n w := by
  simp only [generateTestcase, hc]
  rfl

/-! ### Claim theorems -/

/-- C1: `generateTestcase` enters the download step (observable as the
"downloading source" log line, `Event.downloadStart`) if and only if
`source.html` is absent under the test directory or a non-empty source
URL was supplied; and when the file exists and no URL was supplied, no
network access occurs and the bytes of `source.html` are unchanged
afterward. -/
theorem generateTestcase_download_iff (env : Env) (n u : String) (w : World) :
    (Event.downloadStart n u ∈ (generateTestcase env n u w).2.2 ↔
      (fileExistsW w ["test-pages", n, "source.html"] = false ∨ u ≠ "")) ∧
    (fileExistsW w ["test-pages", n, "source.html"] = true → u = "" →
      (∀ url, Event.netGet url ∉ (generateTestcase env n u w).2.2) ∧
      lookupFile (generateTestcase env n u w).2.1 ["test-pages", n, "source.html"] =
        lookupFile w ["test-pages", n, "source.html"]) := by
  by_cases hfe : fileExistsW w ["test-pages", n, "source.html"] = true
  · by_cases hu : u = ""
    · subst hu
      have hc : (!(fileExistsW w ["test-pages", n, "source.html"]) || "" != "") = false := by
        simp [hfe]
      rw [generateTestcase_eq_noDl env n "" w hc]
      refine ⟨⟨?_, ?_⟩, ?_⟩
      · intro hmem
        have h := genRest_trace_isFile env n w _ hmem
        simp [isFileEvent] at h
      · intro hor
        rcases hor with h | h
        · rw [hfe] at h; exact absurd h (by simp)
        · exact absurd rfl h
      · intro _ _
        refine ⟨?_, ?_⟩
        · intro url hmem
          have h := genRest_trace_isFile env n w _ hmem
          simp [isFileEvent] at h
        · exact genRest_lookup env n w _ (src_ne_exp n n) (src_ne_meta n n)
    · have hc : (!(fileExistsW w ["test-pages", n, "source.html"]) || u != "") = true := by
        simp [hu]
      rcases hd : downloadWebPage env u ["test-pages", n, "source.html"] w with ⟨r, w1, tr1⟩
      cases r with
      | error e =>
        rw [generateTestcase_eq_dlErr env n u w e w1 tr1 hc hd]
        exact ⟨by simp [hu], fun _ h => absurd h hu⟩
      | ok v =>
        cases v
        rw [generateTestcase_eq_dlOk env n u w w1 tr1 hc hd]
        exact ⟨by simp [hu], fun _ h => absurd h hu⟩
  · have hfe2 : fileExistsW w ["test-pages", n, "source.html"] = false := by
      simpa using hfe
    have hc : (!(fileExistsW w ["test-pages", n, "source.html"]) || u != "") = true := by
      simp [hfe2]
    rcases hd : downloadWebPage env u ["test-pages", n, "source.html"] w with ⟨r, w1, tr1⟩
    cases r with
    | error e =>
      rw [generateTestcase_eq_dlErr env n u w e w1 tr1 hc hd]
      exact ⟨by simp [hfe2], fun h => absurd h hfe⟩
    | ok v =>
      cases v
      rw [generateTestcase_eq_dlOk env n u w w1 tr1 hc hd]
      exact ⟨by simp [hfe2], fun h => absurd h hfe⟩

/-- C1 witness: on a world with an existing `source.html` and the empty
URL, the reuse guarantees hold at a concrete input. -/
theorem generateTestcase_download_iff_witness :
    fileExistsW w0 ["test-pages", "sample", "source.html"] = true ∧
    ((∀ url, Event.netGet url ∉ (generateTestcase env0 "sample" "" w0).2.2) ∧
      lookupFile (generateTestcase env0 "sample" "" w0).2.1
          ["test-pages", "sample", "source.html"] =
        lookupFile w0 ["test-pages", "sample", "source.html"]) :=
  ⟨by decide, (generateTestcase_download_iff env0 "sample" "" w0).2 (by decide) rfl⟩

/-- C2: whenever the single-case pipeline succeeds, the `readerable`
boolean marshalled into `expected-metadata.json` is `CheckDocument`
applied to the parsed source document `doc` — the document in its state
before the extraction engine ran (extraction is side-effect-free per the
spec) — and not any function of the extraction result. -/
theorem metadata_readerable_from_original (env : Env) (n u : String) (w : World)
    (h : (generateTestcase env n u w).1 = .ok ()) :
    ∃ srcContent doc article,
      env.parse srcContent = .ok doc ∧
      env.extract doc = .ok article ∧
      lookupFile (generateTestcase env n u w).2.1
          ["test-pages", n, "expected-metadata.json"] =
        some (marshalMetadata article (env.checkDocument doc)) := by
  by_cases hc : (!(fileExistsW w ["test-pages", n, "source.html"]) || u != "") = true
  · rcases hd : downloadWebPage env u ["test-pages", n, "source.html"] w with ⟨r, w1, tr1⟩
    cases r with
    | error e =>
      rw [generateTestcase_eq_dlErr env n u w e w1 tr1 hc hd] at h
      exact absurd h (by simp)
    | ok v =>
      cases v
      rw [generateTestcase_eq_dlOk env n u w w1 tr1 hc hd] at h ⊢
      rcases genRest_success_meta env n w1 h with ⟨c, doc, article, _, hp, hx, hm⟩
      exact ⟨c, doc, article, hp, hx, hm⟩
  · have hc2 : (!(fileExistsW w ["test-pages", n, "source.html"]) || u != "") = false := by
      simpa using hc
    rw [generateTestcase_eq_noDl env n u w hc2] at h ⊢
    rcases genRest_success_meta env n w h with ⟨c, doc, article, _, hp, hx, hm⟩
    exact ⟨c, doc, article, hp, hx, hm⟩

/-- C2 witness: a concrete successful run, with the marshalled metadata
carrying `CheckDocument` of the parsed document. -/
theorem metadata_readerable_from_original_witness :
    (generateTestcase env0 "sample" "" w0).1 = .ok () ∧
    (∃ srcContent doc article,
      env0.parse srcContent = .ok doc ∧
      env0.extract doc = .ok article ∧
      lookupFile (generateTestcase env0 "sample" "" w0).2.1
          ["test-pages", "sample", "expected-metadata.json"] =
        some (marshalMetadata article (env0.checkDocument doc))) :=
  ⟨rfl, metadata_readerable_from_original env0 "sample" "" w0 rfl⟩

/-- C3 counterexample: a download whose HTTP request succeeds but whose
body read fails mid-copy returns an error, yet leaves the partially
received bytes (`<h`) in `source.html`, and a later `fileExists` check
accepts that file as a valid source. -/
theorem download_partial_body_persisted :
    (downloadWebPage env0 "http://example.com/a"
        ["test-pages", "sample2", "source.html"] wPartial).1 = .error .saveFailed ∧
    lookupFile (downloadWebPage env0 "http://example.com/a"
        ["test-pages", "sample2", "source.html"] wPartial).2.1
      ["test-pages", "sample2", "source.html"] = some "<h" ∧
    fileExistsW (downloadWebPage env0 "http://example.com/a"
        ["test-pages", "sample2", "source.html"] wPartial).2.1
      ["test-pages", "sample2", "source.html"] = true :=
  ⟨rfl, rfl, rfl⟩

/-- C3 (amended): failures before a response is obtained leave the
filesystem untouched (invalid URL: no I/O at all; connection
failure/timeout: only the GET happened), and every network-level failure
is reported to the caller as an error — but a body-read failure mid-copy
leaves the partially received bytes in `source.html` rather than
discarding them. -/
theorem downloadWebPage_failure_contract (env : Env) (u : String) (p : Path) (w : World) :
    (env.validURL u = false → downloadWebPage env u p w = (.error .invalidURL, w, [])) ∧
    (env.validURL u = true → w.net u = .connectError →
      downloadWebPage env u p w = (.error .fetchFailed, w, [.netGet u])) ∧
    (∀ r, env.validURL u = true → w.net u = .bodyReadError r →
      (downloadWebPage env u p w).1 = .error .saveFailed ∧
      lookupFile (downloadWebPage env u p w).2.1 p = some r) := by
  refine ⟨downloadWebPage_eq_invalid env u p w, downloadWebPage_eq_connect env u p w, ?_⟩
  intro r h1 h2
  rw [downloadWebPage_eq_bodyErr env u p w r h1 h2]
  refine ⟨rfl, ?_⟩
  show lookupFile (setFile _ _ _) _ = _
  rw [lookupFile_setFile, if_pos rfl]

/-- C3 (amended) witness: a concrete connection failure leaves the world
untouched and reports a fetch error. -/
theorem downloadWebPage_failure_contract_witness :
    (env0.validURL "http://example.com/a" = true ∧
      w0.net "http://example.com/a" = .connectError) ∧
    downloadWebPage env0 "http://example.com/a" ["test-pages", "t2", "source.html"] w0 =
      (.error .fetchFailed, w0, [.netGet "http://example.com/a"]) :=
  ⟨⟨by decide, rfl⟩,
    (downloadWebPage_failure_contract env0 "http://example.com/a"
      ["test-pages", "t2", "source.html"] w0).2.1 (by decide) rfl⟩

/-- C4 counterexample: `renderNodeToFile` reports success without ever
syncing the file it wrote, refuting "each of the two file-writing
operations syncs its file before returning nil". -/
theorem renderNodeToFile_missing_sync :
    (renderNodeToFile env0 "node0" ["test-pages", "sample", "expected.html"] w0).1 = .ok () ∧
    Event.fileSync ["test-pages", "sample", "expected.html"] ∉
      (renderNodeToFile env0 "node0" ["test-pages", "sample", "expected.html"] w0).2.2 :=
  ⟨rfl, by decide⟩

/-- C4 (amended): of the two serialization operations only
`renderMetadataToFile` syncs its file before reporting success (the sync
is its last file operation); `renderNodeToFile` reports success with no
sync at all, its file being flushed only by `Close`. -/
theorem serializer_sync_contract (env : Env) (element original : String) (article : Article)
    (p q : Path) (w w2 : World) :
    ((renderNodeToFile env element p w).1 = .ok () ∧
      ∀ x, Event.fileSync x ∉ (renderNodeToFile env element p w).2.2) ∧
    ((renderMetadataToFile env original article q w2).1 = .ok () ∧
      (renderMetadataToFile env original article q w2).2.2.getLast? =
        some (.fileSync q)) := by
  refine ⟨⟨rfl, ?_⟩, rfl, rfl⟩
  intro x hmem
  simp [renderNodeToFile] at hmem

/-- Key-presence for `title` in the marshalled metadata object. -/
theorem metadataKeys_title (a : Article) (r : Bool) :
    ("title" ∈ (metadataFields a r).map Prod.fst) ↔ a.title ≠ "" := by
  by_cases h1 : a.title = "" <;> by_cases h2 : a.byline = "" <;>
    by_cases h3 : a.excerpt = "" <;> by_cases h4 : a.language = "" <;>
    by_cases h5 : a.siteName = "" <;>
    simp [metadataFields, h1, h2, h3, h4, h5]

/-- Key-presence for `byline` in the marshalled metadata object. -/
theorem metadataKeys_byline (a : Article) (r : Bool) :
    ("byline" ∈ (metadataFields a r).map Prod.fst) ↔ a.byline ≠ "" := by
  by_cases h1 : a.title = "" <;> by_cases h2 : a.byline = "" <;>
    by_cases h3 : a.excerpt = "" <;> by_cases h4 : a.language = "" <;>
    by_cases h5 : a.siteName = "" <;>
    simp [metadataFields, h1, h2, h3, h4, h5]

/-- Key-presence for `excerpt` in the marshalled metadata object. -/
theorem metadataKeys_excerpt (a : Article) (r : Bool) :
    ("excerpt" ∈ (metadataFields a r).map Prod.fst) ↔ a.excerpt ≠ "" := by
  by_cases h1 : a.title = "" <;> by_cases h2 : a.byline = "" <;>
    by_cases h3 : a.excerpt = "" <;> by_cases h4 : a.language = "" <;>
    by_cases h5 : a.siteName = "" <;>
    simp [metadataFields, h1, h2, h3, h4, h5]

/-- Key-presence for `language` in the marshalled metadata object. -/
theorem metadataKeys_language (a : Article) (r : Bool) :
    ("language" ∈ (metadataFields a r).map Prod.fst) ↔ a.language ≠ "" := by
  by_cases h1 : a.title = "" <;> by_cases h2 : a.byline = "" <;>
    by_cases h3 : a.excerpt = "" <;> by_cases h4 : a.language = "" <;>
    by_cases h5 : a.siteName = "" <;>
    simp [metadataFields, h1, h2, h3, h4, h5]

/-- Key-presence for `siteName` in the marshalled metadata object. -/
theorem metadataKeys_siteName (a : Article) (r : Bool) :
    ("siteName" ∈ (metadataFields a r).map Prod.fst) ↔ a.siteName ≠ "" := by
  by_cases h1 : a.title = "" <;> by_cases h2 : a.byline = "" <;>
    by_cases h3 : a.excerpt = "" <;> by_cases h4 : a.language = "" <;>
    by_cases h5 : a.siteName = "" <;>
    simp [metadataFields, h1, h2, h3, h4, h5]

/-- The `readerable` key is always present. -/
theorem metadataKeys_readerable (a : Article) (r : Bool) :
    "readerable" ∈ (metadataFields a r).map Prod.fst := by
  by_cases h1 : a.title = "" <;> by_cases h2 : a.byline = "" <;>
    by_cases h3 : a.excerpt = "" <;> by_cases h4 : a.language = "" <;>
    by_cases h5 : a.siteName = "" <;>
    simp [metadataFields, h1, h2, h3, h4, h5]

/-- The keys appear in the struct's declaration order. -/
theorem metadataKeys_sublist (a : Article) (r : Bool) :
    ((metadataFields a r).map Prod.fst).Sublist
      ["title", "byline", "excerpt", "language", "siteName", "readerable"] := by
  by_cases h1 : a.title = "" <;> by_cases h2 : a.byline = "" <;>
    by_cases h3 : a.excerpt = "" <;> by_cases h4 : a.language = "" <;>
    by_cases h5 : a.siteName = "" <;>
    simp [metadataFields, h1, h2, h3, h4, h5] <;> decide

/-- C5: in the metadata object written to `expected-metadata.json`, each
of the scalar keys `title`, `byline`, `excerpt`, `language`, `siteName`
is present exactly when the engine returned it non-empty, `readerable` is
always present, the keys keep the struct's declaration order, and the
object is serialized in the 4-space-indent pretty-printed layout. -/
theorem metadata_omission_and_order (a : Article) (r : Bool) :
    (("title" ∈ (metadataFields a r).map Prod.fst) ↔ a.title ≠ "") ∧
    (("byline" ∈ (metadataFields a r).map Prod.fst) ↔ a.byline ≠ "") ∧
    (("excerpt" ∈ (metadataFields a r).map Prod.fst) ↔ a.excerpt ≠ "") ∧
    (("language" ∈ (metadataFields a r).map Prod.fst) ↔ a.language ≠ "") ∧
    (("siteName" ∈ (metadataFields a r).map Prod.fst) ↔ a.siteName ≠ "") ∧
    ("readerable" ∈ (metadataFields a r).map Prod.fst) ∧
    ((metadataFields a r).map Prod.fst).Sublist
      ["title", "byline", "excerpt", "language", "siteName", "readerable"] ∧
    marshalMetadata a r = jsonObjectIndent4 (metadataFields a r) :=
  ⟨metadataKeys_title a r, metadataKeys_byline a r, metadataKeys_excerpt a r,
   metadataKeys_language a r, metadataKeys_siteName a r, metadataKeys_readerable a r,
   metadataKeys_sublist a r, rfl⟩

/-- C6: an invocation that supplies a non-empty, syntactically invalid
source URL dies on URL validation before any network or filesystem
access: the outcome is the validation failure, the world is unchanged
(no file created or altered) and the event trace is empty. -/
theorem main_invalid_url_fails_fast (env : Env) (prog n u : String) (w : World)
    (hn : n ≠ "") (hu : u ≠ "") (hv : env.validURL u = false) :
    mainRun env [prog, n, u] w = (.urlInvalid u, w, [], []) := by
  show mainWithArgs env n u w = _
  simp [mainWithArgs, hn, hu, hv]

/-- C6 witness: the literal input `not-a-url` is rejected with no I/O. -/
theorem main_invalid_url_fails_fast_witness :
    ("sample" ≠ "" ∧ "not-a-url" ≠ "" ∧ env0.validURL "not-a-url" = false) ∧
    mainRun env0 ["generate-test", "sample", "not-a-url"] w0 =
      (.urlInvalid "not-a-url", w0, [], []) :=
  ⟨⟨by decide, by decide, by decide⟩,
    main_invalid_url_fails_fast env0 "generate-test" "sample" "not-a-url" w0
      (by decide) (by decide) (by decide)⟩

/-- C7: in batch mode an entry is processed only if it is a directory
containing `source.html` (and every processed name comes from such an
entry, judged against the starting world — regeneration of one case does
not disturb another's source); when the batch run completes without
failure the processed names are exactly the qualifying entries in
enumeration order; non-qualifying entries are skipped silently —
a failure can only be attributed to a qualifying entry; and the whole
batch run performs no network access, because every case runs with the
empty source URL over its existing source. -/
theorem batch_selection (env : Env) (items : List Entry) (w : World) :
    (∀ n ∈ (batchLoop env items w).2.2.2,
      ∃ e, e ∈ items ∧ e.name = n ∧ qualifies w e = true) ∧
    ((batchLoop env items w).1 = .okDone →
      (batchLoop env items w).2.2.2 =
        (items.filter (fun e => qualifies w e)).map Entry.name) ∧
    (∀ url, Event.netGet url ∉ (batchLoop env items w).2.2.1) ∧
    (∀ n ge, (batchLoop env items w).1 = .caseFailed n ge →
      ∃ e, e ∈ items ∧ e.name = n ∧ qualifies w e = true) :=
  ⟨(batchLoop_spec env items w).1, (batchLoop_spec env items w).2.1,
   fun url => batchLoop_no_netGet env items w url, (batchLoop_spec env items w).2.2⟩

/-- C7 witness: a concrete listing with a qualifying directory, a
non-directory and a directory without `source.html`; only the qualifying
one is processed and the run succeeds. -/
theorem batch_selection_witness :
    (batchLoop env0 [⟨"sample", true⟩, ⟨"README.md", false⟩, ⟨"empty", true⟩] w0).1 =
      .okDone ∧
    (batchLoop env0 [⟨"sample", true⟩, ⟨"README.md", false⟩, ⟨"empty", true⟩] w0).2.2.2 =
      (([⟨"sample", true⟩, ⟨"README.md", false⟩, ⟨"empty", true⟩] : List Entry).filter
        (fun e => qualifies w0 e)).map Entry.name :=
  ⟨rfl, (batch_selection env0 [⟨"sample", true⟩, ⟨"README.md", false⟩, ⟨"empty", true⟩] w0).2.1 rfl⟩

/-- C8 witness: with `caseA` succeeding and `caseB` failing to parse,
appending a further `caseC` changes nothing about the run, and the
failing case is the last and reported one. -/
theorem batch_fail_fast_witness :
    (batchLoop envMix ([⟨"caseA", true⟩] ++ [⟨"caseB", true⟩]) wBatch).1 =
      .caseFailed "caseB" (.parseFailed "bad html") ∧
    (batchLoop envMix ([⟨"caseA", true⟩] ++ ⟨"caseB", true⟩ :: [⟨"caseC", true⟩]) wBatch =
        batchLoop envMix ([⟨"caseA", true⟩] ++ [⟨"caseB", true⟩]) wBatch ∧
      (batchLoop envMix ([⟨"caseA", true⟩] ++ [⟨"caseB", true⟩]) wBatch).2.2.2.getLast? =
        some "caseB") :=
  ⟨by decide,
    batch_fail_fast envMix [⟨"caseA", true⟩] ⟨"caseB", true⟩ [⟨"caseC", true⟩] wBatch
      "caseB" (.parseFailed "bad html") (by decide)⟩

/-- C9: `fileExists` returns a boolean whenever `os.Stat` succeeds or
fails with a not-exist error, but on any other stat error (for example
permission denied) it dereferences the nil `FileInfo` returned alongside
the error — modelled as `none`, a panic — instead of returning a
boolean. -/
theorem fileExists_stat_contract :
    (∀ i : FileInfo, fileExists (some i) none = some (!i.isDir)) ∧
    fileExists none (some .notExist) = some false ∧
    fileExists none (some .permission) = none :=
  ⟨fun _ => rfl, rfl, rfl⟩

/-- C10: the test name `all` is reserved: with it, `main` runs the batch
loop over the `test-pages` root (so a test-case directory literally named
`all` can never be regenerated as a single case), and a second argument
is URL-validated — an invalid one still kills the run — but otherwise
ignored: the run equals the run without it, and it forces no download for
any case. -/
theorem main_all_reserved (env : Env) (prog u : String) (w : World) :
    (env.validURL u = true →
      mainRun env [prog, "all", u] w = mainRun env [prog, "all"] w ∧
      (∀ items, w.rootEntries = .ok items →
        mainRun env [prog, "all", u] w = batchLoop env items w) ∧
      (∀ url, Event.netGet url ∉ (mainRun env [prog, "all", u] w).2.2.1)) ∧
    (u ≠ "" → env.validURL u = false →
      mainRun env [prog, "all", u] w = (.urlInvalid u, w, [], [])) := by
  constructor
  · intro hv
    have hcond : (u != "" && !(env.validURL u)) = false := by simp [hv]
    cases hroot : w.rootEntries with
    | error m =>
      have hL : mainRun env [prog, "all", u] w = (.readDirFailed m, w, [], []) := by
        show mainWithArgs env "all" u w = _
        simp [mainWithArgs, hcond, hroot]
      have hR : mainRun env [prog, "all"] w = (.readDirFailed m, w, [], []) := by
        show mainWithArgs env "all" "" w = _
        simp [mainWithArgs, hroot]
      refine ⟨hL.trans hR.symm, ?_, ?_⟩
      · intro items hitems
        exact absurd hitems (by simp)
      · intro url
        rw [hL]
        simp
    | ok items =>
      have hL : mainRun env [prog, "all", u] w = batchLoop env items w := by
        show mainWithArgs env "all" u w = _
        simp [mainWithArgs, hcond, hroot]
      have hR : mainRun env [prog, "all"] w = batchLoop env items w := by
        show mainWithArgs env "all" "" w = _
        simp [mainWithArgs, hroot]
      refine ⟨hL.trans hR.symm, ?_, ?_⟩
      · intro items2 hitems
        have h2 : items = items2 := by
          simpa using hitems
        rw [hL, h2]
      · intro url
        rw [hL]
        exact batchLoop_no_netGet env items w url
  · intro hu hv
    show mainWithArgs env "all" u w = _
    simp [mainWithArgs, hu, hv]

/-- C10 witness: a concrete valid second argument next to `all` is
ignored — the run equals the two-argument run. -/
theorem main_all_reserved_witness :
    env0.validURL "http://example.com/a" = true ∧
    mainRun env0 ["generate-test", "all", "http://example.com/a"] w0 =
      mainRun env0 ["generate-test", "all"] w0 :=
  ⟨by decide,
    ((main_all_reserved env0 "generate-test" "http://example.com/a" w0).1 (by decide)).1⟩

end GT
